import Mathlib

/-!
Verification of the conversation-turn state machine of `pydantic_ai`
(files `src/pydantic_ai/_retriever.py` and `src/pydantic_ai/agent.py`).

Shallow embedding conventions:
* Python `int` retry counters only ever hold non-negative values (initialised
  to 0, incremented, reset to 0), so they are embedded as `Nat`.
* Exceptions are embedded as `Except`: a raised exception is `.error`.
* The pydantic `SchemaValidator` and the wrapped user function are external
  collaborators (their code is not part of this repository's core); the
  `Retriever` dataclass stores them as fields, so here they are function
  fields of the structure.  Argument binding (`Retriever._call_args`) and the
  `deps` object only shape the arguments handed to the user function; they are
  absorbed into the stored `function` field, which maps the validated argument
  dict directly to either a `ModelRetry` message (`.error`) or a successful
  string response (`.ok`).
* `asyncio.gather` launches all coroutines of one turn and returns their
  results in input order regardless of completion order; this is embedded
  twice: sequentially in `Agent.handle_model_response` (the value actually
  produced), and via `execSchedule`, which runs the batch under an arbitrary
  completion order and is proved to give the same, input-ordered, result.
-/

namespace PydanticAI

/-- Validated argument dictionary produced by the pydantic validator
(`args_dict` in `Retriever.run`); field values are opaque, embedded as
strings. -/
def ArgsDict : Type := List (String × String)

/-- `messages.ArgsJson` / `messages.ArgsObject`: the arguments of a tool
call, either raw JSON text or an already-structured mapping. -/
inductive ToolCallArgs : Type
  | argsJson (args_json : String)
  | argsObject (args_object : List (String × String))
deriving DecidableEq, Repr

/-- `messages.ToolCall(tool_name, args, tool_id)`. -/
structure ToolCall : Type where
  tool_name : String
  args : ToolCallArgs
  tool_id : String
deriving DecidableEq, Repr

/-- Content of a `ToolRetry` message: either the structured list of field
errors from a `ValidationError` (`e.errors(include_url=False)`, each error
detail embedded as a string) or the human-readable message of a
`ModelRetry`. -/
inductive RetryContent : Type
  | errors (e : List String)
  | message (m : String)
deriving DecidableEq, Repr

/-- The message union of `pydantic_ai.messages`, as used by the two core
files: `SystemPrompt`, `UserPrompt`, the two LLM message roles, `ToolReturn`,
`ToolRetry` and `PlainResponseForbidden` (the spec's `PlainTextForbidden`). -/
inductive Message : Type
  | systemPrompt (text : String)
  | userPrompt (text : String)
  | llmResponse (content : String)
  | llmToolCalls (calls : List ToolCall)
  | toolReturn (tool_name : String) (content : String) (tool_id : String)
  | toolRetry (tool_name : String) (content : RetryContent) (tool_id : String)
  | plainResponseForbidden
deriving DecidableEq, Repr

/-- An LLM message is one of the two model-output roles
(`llm-response` or `llm-tool-calls`). -/
inductive LLMMessage : Type
  | response (content : String)
  | toolCalls (calls : List ToolCall)
deriving DecidableEq, Repr

/-- The message appended for an LLM message
(`messages.append(llm_message)`). -/
def LLMMessage.toMessage : LLMMessage → Message
  | .response content => .llmResponse content
  | .toolCalls calls => .llmToolCalls calls

/-- The fatal (uncaught) exceptions of the two core files:
* the bare `raise` in `Retriever._on_error` when the retry budget is
  exhausted (re-raising the original validation error / `ModelRetry`),
* the `ValueError` for an unknown function name in
  `Agent._handle_model_response`,
* the `RuntimeError` in `Agent._incr_result_retry`. -/
inductive FatalError : Type
  | retryBudgetExhausted (content : RetryContent)
  | unknownFunction (tool_name : String)
  | resultRetriesExceeded (max_result_retries : Nat)
deriving DecidableEq, Repr

/-- The external pydantic `SchemaValidator`: `validate_json` for raw JSON
arguments, `validate_python` for structured arguments; each returns the
validated dict or the list of field errors of a `ValidationError`. -/
structure Validator : Type where
  validate_json : String → Except (List String) ArgsDict
  validate_python : List (String × String) → Except (List String) ArgsDict

/-- `_retriever.Retriever`: one registered tool.  `function` absorbs
argument binding and `deps` (see the file header); `current_retry` is the
mutable `_current_retry` field. -/
structure Retriever : Type where
  name : String
  validator : Validator
  function : ArgsDict → Except String String
  max_retries : Nat
  current_retry : Nat

/-- `Retriever.reset`: set the current retry count to zero. -/
def Retriever.reset (r : Retriever) : Retriever :=
  { r with current_retry := 0 }

/-- `Retriever._on_error`: increment `_current_retry`; if it now exceeds
`max_retries`, re-raise (fatal); otherwise return a `ToolRetry` message
carrying the original call's name and id. -/
def Retriever.on_error (r : Retriever) (content : RetryContent)
    (call_message : ToolCall) : Except FatalError (Retriever × Message) :=
  let r' := { r with current_retry := r.current_retry + 1 }
  if r'.current_retry > r.max_retries then
    .error (.retryBudgetExhausted content)
  else
    .ok (r', .toolRetry call_message.tool_name content call_message.tool_id)

/-- Dispatch on the form of a call's arguments, as the `isinstance` test at
the top of `Retriever.run` does. -/
def Retriever.validateArgs (r : Retriever) (args : ToolCallArgs) :
    Except (List String) ArgsDict :=
  match args with
  | .argsJson s => r.validator.validate_json s
  | .argsObject o => r.validator.validate_python o

/-- `Retriever.run`: validate the call's arguments (failure goes through
`_on_error` with the structured error list), invoke the function (a
`ModelRetry` goes through `_on_error` with its message), and on success
reset the retry counter to 0 and return a `ToolReturn` with the function's
output and the original call's `tool_name` / `tool_id`.  The state of the
retriever after the call is returned alongside the message. -/
def Retriever.run (r : Retriever) (message : ToolCall) :
    Except FatalError (Retriever × Message) :=
  match r.validateArgs message.args with
  | .error errs => r.on_error (.errors errs) message
  | .ok args_dict =>
    match r.function args_dict with
    | .error m => r.on_error (.message m) message
    | .ok response_content =>
      .ok ({ r with current_retry := 0 },
        .toolReturn message.tool_name response_content message.tool_id)

/-- Modelled from the spec: `result.ResultSchema` (its module is not part of
the two core source files).  Per spec §3/§4.2 it is the distinguished
final-answer tool: it has a `name`, an `allow_text_result` flag ("the schema
allows `str`"), and `validate(call)` which returns the validated result data
(embedded as a string) or fails with a `ToolRetryError` carrying a
ready-to-append `ToolRetry` message. -/
structure ResultSchema : Type where
  name : String
  allow_text_result : Bool
  validate : ToolCall → Except Message String

/-- Modelled from the spec: a `result.ResultValidator` (§4.3) receives the
current candidate value, the current result-retry count and the originating
tool call (`deps` is absorbed), and either replaces the value or requests a
retry (a `ToolRetryError` carrying a `ToolRetry` message). -/
def ResultValidator : Type :=
  String → Nat → ToolCall → Except Message String

/-- `agent.Agent`: the fields of the dataclass that the conversation-turn
state machine reads or mutates.  `retrievers` is the `_retrievers` dict,
embedded as an association list; the model/transport fields are external
collaborators and are not part of the state machine. -/
structure Agent : Type where
  result_tool : Option ResultSchema
  result_validators : List ResultValidator
  allow_text_result : Bool
  system_prompts : List String
  retrievers : List (String × Retriever)
  default_retries : Nat
  system_prompt_outputs : List String
  max_result_retries : Nat
  current_result_retry : Nat

/-- The construction of `Agent.__init__` restricted to the state-machine
fields: `_allow_text_result` is true iff the result tool is `None` or its
schema allows `str`; `_max_result_retries` defaults to `retries`;
`_current_result_retry` starts at 0; no retrievers are registered yet. -/
def Agent.init (result_tool : Option ResultSchema) (system_prompt : List String)
    (retries : Nat) (result_retries : Option Nat) : Agent where
  result_tool := result_tool
  result_validators := []
  allow_text_result :=
    result_tool.isNone || (result_tool.map (·.allow_text_result)).getD false
  system_prompts := system_prompt
  retrievers := []
  default_retries := retries
  system_prompt_outputs := []
  max_result_retries := result_retries.getD retries
  current_result_retry := 0

/-- `dict.get` on the `_retrievers` dict. -/
def Agent.getRetriever (a : Agent) (tool_name : String) : Option Retriever :=
  (a.retrievers.find? (fun p => p.1 == tool_name)).map Prod.snd

/-- Store an updated retriever back under its name (the in-place mutation
of the shared `Retriever` object in Python). -/
def storeRetriever (regs : List (String × Retriever)) (r : Retriever) :
    List (String × Retriever) :=
  regs.map (fun p => if p.1 == r.name then (p.1, r) else p)

/-- `Agent._incr_result_retry`: increment `_current_result_retry` and raise
a `RuntimeError` if it now exceeds `_max_result_retries`. -/
def Agent.incr_result_retry (a : Agent) : Except FatalError Agent :=
  let a' := { a with current_result_retry := a.current_result_retry + 1 }
  if a'.current_result_retry > a.max_result_retries then
    .error (.resultRetriesExceeded a.max_result_retries)
  else
    .ok a'

/-- `Agent._validate_result`: apply each registered result validator in
registration order, threading the (possibly replaced) value; each receives
the current result-retry count and the originating call. -/
def Agent.validate_result (a : Agent) (result : String) (tool_call : ToolCall) :
    Except Message String :=
  a.result_validators.foldlM
    (fun res v => v res a.current_result_retry tool_call) result

/-- The name-resolution loop of `Agent._handle_model_response`: each call is
looked up in the `_retrievers` dict *before* any retriever runs (the
coroutines are only collected); an unknown name raises a `ValueError`
immediately — at the first unknown name in call order — so no tool of the
batch executes. -/
def Agent.resolveCalls (a : Agent) :
    List ToolCall → Except FatalError (List (Retriever × ToolCall))
  | [] => .ok []
  | call :: calls =>
    match a.getRetriever call.tool_name with
    | none => .error (.unknownFunction call.tool_name)
    | some retriever =>
      match a.resolveCalls calls with
      | .error e => .error e
      | .ok rest => .ok ((retriever, call) :: rest)

/-- One task of the gathered batch: run a retriever on its call from the
state it was resolved with. -/
def taskRun (t : Retriever × ToolCall) : Except FatalError (Retriever × Message) :=
  t.1.run t.2

/-- `await asyncio.gather(*coros)`: every task of the batch runs from the
retriever state it was resolved with, and the results are collected in
input order (gather's ordering guarantee); the first raised exception
propagates. -/
def gatherSeq : List (Retriever × ToolCall) →
    Except FatalError (List (Retriever × Message))
  | [] => .ok []
  | t :: ts =>
    match taskRun t with
    | .error e => .error e
    | .ok p =>
      match gatherSeq ts with
      | .error e => .error e
      | .ok ps => .ok (p :: ps)

/-- The retriever-dispatch branch of `Agent._handle_model_response`: resolve
every call (raising on an unknown name before anything runs), gather the
runs (results in input order), append the result messages and write the
updated retrievers back. -/
def Agent.dispatchCalls (a : Agent) (messages : List Message)
    (calls : List ToolCall) :
    List Message × Except FatalError (Agent × Option String) :=
  match a.resolveCalls calls with
  | .error e => (messages, .error e)
  | .ok tasks =>
    match gatherSeq tasks with
    | .error e => (messages, .error e)
    | .ok results =>
      let regs' := results.foldl (fun regs p => storeRetriever regs p.1) a.retrievers
      (messages ++ results.map Prod.snd, .ok ({ a with retrievers := regs' }, none))

/-- `Agent._handle_model_response`.  The `messages` list is mutated in
place in Python, so the embedding always returns the final state of the
list, also when a fatal error propagates (first component); the second
component is `None` to continue the conversation, `Some result` to end it,
or the fatal error, together with the agent state (retriever counters and
the result-retry counter). -/
def Agent.handle_model_response (a : Agent) (messages : List Message)
    (llm_message : LLMMessage) :
    List Message × Except FatalError (Agent × Option String) :=
  let messages := messages ++ [llm_message.toMessage]
  match llm_message with
  | .response content =>
    if a.allow_text_result then
      (messages, .ok (a, some content))
    else
      (messages ++ [.plainResponseForbidden], .ok (a, none))
  | .toolCalls calls =>
    match a.result_tool with
    | some result_tool =>
      match calls.find? (fun c => c.tool_name == result_tool.name) with
      | some call =>
        match result_tool.validate call >>=
            (fun result => a.validate_result result call) with
        | .ok result => (messages, .ok (a, some result))
        | .error tool_retry =>
          match a.incr_result_retry with
          | .error e => (messages, .error e)
          | .ok a' => (messages ++ [tool_retry], .ok (a', none))
      | none => a.dispatchCalls messages calls
    | none => a.dispatchCalls messages calls

/-- How a run ends when it does not abort fatally: a terminal result was
produced, or the model transcript was exhausted with the loop still going
(the Python `while True` would issue the next request). -/
inductive LoopEnd : Type
  | finished (result : String)
  | outOfScript

/-- The `while True` loop of `Agent.run`: request the next model message
(the external transport is embedded as a transcript, one `LLMMessage` per
request), hand it to `_handle_model_response`, return on a result, loop on
`None`.  The final state of the message list is always returned (it is a
mutable list in Python). -/
def runLoop (a : Agent) (messages : List Message) :
    List LLMMessage → List Message × Except FatalError (Agent × LoopEnd)
  | [] => (messages, .ok (a, .outOfScript))
  | llm_message :: script =>
    match a.handle_model_response messages llm_message with
    | (messages', .error e) => (messages', .error e)
    | (messages', .ok (a', some result)) => (messages', .ok (a', .finished result))
    | (messages', .ok (a', none)) => runLoop a' messages' script

/-- `Agent._init_messages`: the static system prompts followed by the
outputs of the dynamic system-prompt functions, in registration order. -/
def Agent.init_messages (a : Agent) : List Message :=
  a.system_prompts.map Message.systemPrompt
    ++ a.system_prompt_outputs.map Message.systemPrompt

/-- The reset loop of `Agent.run`
(`for retriever in self._retrievers.values(): retriever.reset()`). -/
def Agent.reset_retrievers (a : Agent) : Agent :=
  { a with retrievers := a.retrievers.map (fun p => (p.1, p.2.reset)) }

/-- `Agent.run`: build the initial message list (supplied history verbatim,
or `_init_messages`), append the user prompt, reset every registered
retriever's retry counter, then drive the loop.  Model selection and cost
accounting are external and carry no state-machine content. -/
def Agent.run (a : Agent) (user_prompt : String)
    (message_history : Option (List Message)) (script : List LLMMessage) :
    List Message × Except FatalError (Agent × LoopEnd) :=
  let messages :=
    (match message_history with
     | some h => h
     | none => a.init_messages) ++ [Message.userPrompt user_prompt]
  runLoop a.reset_retrievers messages script

/-- The message a finished task contributes (`none` when the
task raised). -/
def msgOf (e : Except FatalError (Retriever × Message)) : Option Message :=
  match e with
  | .ok p => some p.2
  | .error _ => none

/-- Execution of a gathered batch under an explicit completion order: the
tasks of one turn run independently (each from the retriever state it was
resolved with), and `order` lists the indices in the order their coroutines
complete; each completion fills the slot of its own *input* index.  This is
the completion-order-explicit counterpart of `asyncio.gather`. -/
def execSchedule (tasks : List (Retriever × ToolCall)) :
    List Nat → List (Option Message) → List (Option Message)
  | [], slots => slots
  | i :: order, slots =>
    match tasks[i]? with
    | some t => execSchedule tasks order (slots.set i (msgOf (taskRun t)))
    | none => execSchedule tasks order slots

/-- Gather a batch under completion order `order`, starting from empty
slots. -/
def gatherWithOrder (tasks : List (Retriever × ToolCall)) (order : List Nat) :
    List (Option Message) :=
  execSchedule tasks order (List.replicate tasks.length none)

/-! ### Iterated tool invocation (for retry-budget properties) -/

/-- The same call run `n` times in a row against one retriever, threading
its state and collecting the returned messages; a raised error stops the
sequence. -/
def iterRuns (r : Retriever) (call : ToolCall) :
    Nat → Except FatalError (Retriever × List Message)
  | 0 => .ok (r, [])
  | n + 1 =>
    match iterRuns r call n with
    | .error e => .error e
    | .ok (r', msgs) =>
      match r'.run call with
      | .error e => .error e
      | .ok (r'', m) => .ok (r'', msgs ++ [m])

/-- The call fails on this retriever: either its arguments do not validate,
or the function raises a `ModelRetry`. -/
def attemptFails (r : Retriever) (call : ToolCall) : Prop :=
  (∃ e, r.validateArgs call.args = .error e) ∨
    (∃ d m, r.validateArgs call.args = .ok d ∧ r.function d = .error m)

/-! ### Concrete fixtures used by witnesses and counterexamples -/

/-- A validator that rejects every payload with one field error. -/
def valFail : Validator :=
  ⟨fun _ => .error ["city: wrong type"], fun _ => .error ["city: wrong type"]⟩

/-- A validator that accepts every payload with an empty dict. -/
def valOk : Validator := ⟨fun _ => .ok [], fun _ => .ok []⟩

/-- Concrete tool calls. -/
def callA : ToolCall := ⟨"toolA", .argsObject [], "idA"⟩

def callB : ToolCall := ⟨"toolB", .argsObject [], "idB"⟩

def callC : ToolCall := ⟨"toolC", .argsObject [], "idC"⟩

def callResult : ToolCall := ⟨"final_result", .argsObject [], "idR"⟩

def callUnknown : ToolCall := ⟨"mystery", .argsObject [], "idU"⟩

/-- A retriever whose validator always fails (`max_retries = 2`). -/
def toolAFail : Retriever := ⟨"toolA", valFail, fun _ => .ok "ra", 2, 0⟩

/-- A retriever whose validator always fails (`max_retries = 1`). -/
def toolAFail1 : Retriever := ⟨"toolA", valFail, fun _ => .ok "ra", 1, 0⟩

/-- A retriever that succeeds, currently mid-way through its retry budget. -/
def toolAOk5 : Retriever := ⟨"toolA", valOk, fun _ => .ok "weather in Paris", 9, 5⟩

/-- A plain succeeding retriever. -/
def toolBOk : Retriever := ⟨"toolB", valOk, fun _ => .ok "rb", 1, 0⟩

def toolCOk : Retriever := ⟨"toolC", valOk, fun _ => .ok "rc", 1, 0⟩

/-- A result schema whose validation always fails with a ready retry
message. -/
def rsFail : ResultSchema :=
  ⟨"final_result", false,
    fun c => .error (.toolRetry "final_result" (.errors ["bad result"]) c.tool_id)⟩

/-- A result schema whose validation succeeds. -/
def rsOk : ResultSchema := ⟨"final_result", false, fun _ => .ok "answer"⟩

/-- Agent with no result schema and tools A (failing), B, C. -/
def agentPlain : Agent :=
  ⟨none, [], true, [], [("toolA", toolAFail), ("toolB", toolBOk), ("toolC", toolCOk)],
    1, [], 1, 0⟩

/-- Agent with a failing result schema (`max_result_retries = 2`, one retry
already consumed) and tools B, C. -/
def agentResult : Agent :=
  ⟨some rsFail, [], false, [], [("toolB", toolBOk), ("toolC", toolCOk)], 1, [], 2, 1⟩

/-- Agent with a succeeding result schema and tools B, C. -/
def agentResultOk : Agent :=
  ⟨some rsOk, [], false, [], [("toolB", toolBOk), ("toolC", toolCOk)], 1, [], 2, 0⟩

/-! ### Helper lemmas: the retry counter under consecutive failures -/

@[simp] lemma current_retry_set (r : Retriever) (c : Nat) :
    ({ r with current_retry := c } : Retriever).current_retry = c := rfl

@[simp] lemma max_retries_set (r : Retriever) (c : Nat) :
    ({ r with current_retry := c } : Retriever).max_retries = r.max_retries := rfl

lemma validateArgs_set_retry (r : Retriever) (c : Nat) (args : ToolCallArgs) :
    ({ r with current_retry := c } : Retriever).validateArgs args
      = r.validateArgs args := rfl

lemma function_set_retry (r : Retriever) (c : Nat) :
    ({ r with current_retry := c } : Retriever).function = r.function := rfl

/-- A failing attempt takes `Retriever.run` into `_on_error`, with a content
that does not depend on the current retry count (the validator and the
function are fixed fields). -/
lemma run_fail_on_error (r : Retriever) (call : ToolCall)
    (h : attemptFails r call) :
    ∃ content, ∀ c : Nat,
      ({ r with current_retry := c } : Retriever).run call
        = ({ r with current_retry := c } : Retriever).on_error content call := by
  rcases h with ⟨e, he⟩ | ⟨d, m, hd, hm⟩
  · exact ⟨.errors e, fun c => by
      simp only [Retriever.run, validateArgs_set_retry, he]⟩
  · exact ⟨.message m, fun c => by
      simp only [Retriever.run, validateArgs_set_retry, hd, function_set_retry, hm]⟩

/-- Within the budget, `i` consecutive failures accumulate the counter to
`i` and produce one `ToolRetry` per failure. -/
lemma iterRuns_of_fail (r : Retriever) (call : ToolCall) (content : RetryContent)
    (hrun : ∀ c : Nat,
      ({ r with current_retry := c } : Retriever).run call
        = ({ r with current_retry := c } : Retriever).on_error content call)
    (h0 : r.current_retry = 0) :
    ∀ i, i ≤ r.max_retries →
      iterRuns r call i = .ok ({ r with current_retry := i },
        List.replicate i (Message.toolRetry call.tool_name content call.tool_id)) := by
  intro i
  induction i with
  | zero =>
    intro _
    have hr : ({ r with current_retry := 0 } : Retriever) = r := by
      obtain ⟨n, v, f, mr, cr⟩ := r
      simp only at h0
      subst h0; rfl
    simp [iterRuns, hr]
  | succ n ih =>
    intro h
    simp only [iterRuns, ih (Nat.le_of_succ_le h), hrun n, Retriever.on_error]
    rw [if_neg (by omega)]
    simp [List.replicate_succ']

/-- One more failure past the budget raises. -/
lemma iterRuns_fatal (r : Retriever) (call : ToolCall) (content : RetryContent)
    (hrun : ∀ c : Nat,
      ({ r with current_retry := c } : Retriever).run call
        = ({ r with current_retry := c } : Retriever).on_error content call)
    (h0 : r.current_retry = 0) :
    iterRuns r call (r.max_retries + 1)
      = .error (.retryBudgetExhausted content) := by
  simp only [iterRuns, iterRuns_of_fail r call content hrun h0 r.max_retries le_rfl,
    hrun r.max_retries, Retriever.on_error]
  rw [if_pos (by omega)]

/-- Claim C1: for a tool registered with `max_retries = N`, `N` consecutive
validation / application-retry failures of `Tool.run` produce `N`
`ToolRetry` messages with the retry counter taking the values `1..N`
(after the `i`-th failure the counter is `i`), and the `(N+1)`-th
consecutive failure is raised out of `run` rather than returned as a
`ToolRetry`. -/
theorem claim_C1_retry_budget (r : Retriever) (call : ToolCall) (N : Nat)
    (hfail : attemptFails r call) (h0 : r.current_retry = 0)
    (hmax : r.max_retries = N) :
    (∀ i, 1 ≤ i → i ≤ N → ∃ ri msgs,
      iterRuns r call i = .ok (ri, msgs) ∧
      ri.current_retry = i ∧ msgs.length = i ∧
      ∃ content,
        msgs = List.replicate i (Message.toolRetry call.tool_name content call.tool_id)) ∧
    (∃ content,
      iterRuns r call (N + 1) = .error (.retryBudgetExhausted content)) := by
  obtain ⟨content, hrun⟩ := run_fail_on_error r call hfail
  subst hmax
  constructor
  · intro i _ hi
    exact ⟨_, _, iterRuns_of_fail r call content hrun h0 i hi, rfl, by simp,
      content, rfl⟩
  · exact ⟨content, iterRuns_fatal r call content hrun h0⟩

/-- Witness for C1 at `toolAFail` (`max_retries = 2`) with an
always-failing validation. -/
theorem claim_C1_witness :
    (∀ i, 1 ≤ i → i ≤ 2 → ∃ ri msgs,
      iterRuns toolAFail callA i = .ok (ri, msgs) ∧
      ri.current_retry = i ∧ msgs.length = i ∧
      ∃ content,
        msgs = List.replicate i (Message.toolRetry callA.tool_name content callA.tool_id)) ∧
    (∃ content,
      iterRuns toolAFail callA (2 + 1) = .error (.retryBudgetExhausted content)) :=
  claim_C1_retry_budget toolAFail callA 2 (Or.inl ⟨_, rfl⟩) rfl rfl

/-- Claim C2, counterexample: with `max_retries = 1` and a fresh counter,
the first validation failure returns a `ToolRetry` although the counter
after incrementing equals (is not strictly below) `max_retries` — the code
only raises when the counter strictly exceeds the budget. -/
theorem claim_C2_counterexample :
    toolAFail1.run callA =
      .ok ({ toolAFail1 with current_retry := 1 },
        .toolRetry "toolA" (.errors ["city: wrong type"]) "idA") ∧
    ¬ ((1 : Nat) < toolAFail1.max_retries) :=
  ⟨rfl, by decide⟩

/-- Claim C2 (amended): on a validation failure, `Tool.run` returns a
`ToolRetry` whose content is the structured list of field errors exactly
when, after incrementing, `current_retry ≤ max_retries` (not `<`); when the
incremented counter strictly exceeds `max_retries` it propagates a fatal
error. -/
theorem claim_C2_validation_failure (r : Retriever) (call : ToolCall)
    (errs : List String) (hv : r.validateArgs call.args = .error errs) :
    (r.current_retry + 1 ≤ r.max_retries →
      r.run call = .ok ({ r with current_retry := r.current_retry + 1 },
        .toolRetry call.tool_name (.errors errs) call.tool_id)) ∧
    (r.max_retries < r.current_retry + 1 →
      r.run call = .error (.retryBudgetExhausted (.errors errs))) := by
  constructor <;> intro h <;>
    simp only [Retriever.run, hv, Retriever.on_error]
  · rw [if_neg (by omega)]
  · rw [if_pos (by omega)]

/-- Witness for the amended C2 at `toolAFail` (budget 2, counter 0): the
failure is inside the budget and yields the structured-error retry. -/
theorem claim_C2_witness :
    toolAFail.current_retry + 1 ≤ toolAFail.max_retries ∧
    toolAFail.run callA =
      .ok ({ toolAFail with current_retry := toolAFail.current_retry + 1 },
        .toolRetry callA.tool_name (.errors ["city: wrong type"]) callA.tool_id) :=
  ⟨by decide, (claim_C2_validation_failure toolAFail callA _ rfl).1 (by decide)⟩

/-- Claim C9: a successful invocation (validation passed, function returned
without a retry signal) resets the tool's retry counter to 0, whatever its
prior value, and returns a `ToolReturn` with the function's output and the
original call's `tool_name` / `tool_id`. -/
theorem claim_C9_success_resets (r : Retriever) (call : ToolCall)
    (d : ArgsDict) (out : String)
    (hv : r.validateArgs call.args = .ok d) (hf : r.function d = .ok out) :
    r.run call = .ok ({ r with current_retry := 0 },
      Message.toolReturn call.tool_name out call.tool_id) := by
  simp only [Retriever.run, hv, hf]

/-- Witness for C9 at a retriever whose counter is 5. -/
theorem claim_C9_witness :
    toolAOk5.current_retry = 5 ∧
    toolAOk5.run callA = .ok ({ toolAOk5 with current_retry := 0 },
      Message.toolReturn callA.tool_name "weather in Paris" callA.tool_id) :=
  ⟨rfl, claim_C9_success_resets toolAOk5 callA [] "weather in Paris" rfl rfl⟩

/-- Claim C5: handling a free-text model response is terminal exactly when
plain text is acceptable.  If `_allow_text_result` holds (no result schema,
or the schema allows `str` — last two conjuncts tie the flag to the
configuration as `Agent.__init__` computes it), the run ends with the text
as the result; otherwise a `PlainResponseForbidden` sentinel is appended and
the loop continues with the next model request. -/
theorem claim_C5_text_terminal (a : Agent) (messages : List Message)
    (text : String) (rest : List LLMMessage) :
    (a.allow_text_result = true →
      runLoop a messages (.response text :: rest) =
        (messages ++ [.llmResponse text], .ok (a, .finished text))) ∧
    (a.allow_text_result = false →
      runLoop a messages (.response text :: rest) =
        runLoop a (messages ++ [.llmResponse text, .plainResponseForbidden]) rest) ∧
    (∀ rt sp n rr,
      (Agent.init (some rt) sp n rr).allow_text_result = rt.allow_text_result) ∧
    (∀ sp n rr, (Agent.init none sp n rr).allow_text_result = true) := by
  refine ⟨fun h => ?_, fun h => ?_, fun rt sp n rr => ?_, fun sp n rr => ?_⟩
  · simp [runLoop, Agent.handle_model_response, LLMMessage.toMessage, h]
  · simp [runLoop, Agent.handle_model_response, LLMMessage.toMessage, h]
  · simp [Agent.init]
  · simp [Agent.init]

/-- Witness for C5: the plain agent ends on free text; the structured-only
agent appends the sentinel and continues. -/
theorem claim_C5_witness :
    runLoop agentPlain [] [.response "hi"] =
      ([.llmResponse "hi"], .ok (agentPlain, .finished "hi")) ∧
    runLoop agentResult [] [.response "hi"] =
      runLoop agentResult [.llmResponse "hi", .plainResponseForbidden] [] :=
  ⟨(claim_C5_text_terminal agentPlain [] "hi" []).1 rfl,
   (claim_C5_text_terminal agentResult [] "hi" []).2.1 rfl⟩

/-- Claim C3: when a result schema is configured and a call of the turn
names it, only that call is processed — on validation success the turn is
terminal with the result, on a (within-budget) failure only the ready
`ToolRetry` message is appended; in both cases the registered retrievers
are untouched (no other call of the turn is executed) and no
`ToolReturn`/`ToolRetry` is appended for any other call. -/
theorem claim_C3_result_call_authoritative (a : Agent) (messages : List Message)
    (calls : List ToolCall) (result_tool : ResultSchema) (call : ToolCall)
    (hrt : a.result_tool = some result_tool)
    (hfind : calls.find? (fun c => c.tool_name == result_tool.name) = some call) :
    (∀ res,
      result_tool.validate call >>= (fun x => a.validate_result x call) = .ok res →
      a.handle_model_response messages (.toolCalls calls) =
        (messages ++ [.llmToolCalls calls], .ok (a, some res))) ∧
    (∀ tr,
      result_tool.validate call >>= (fun x => a.validate_result x call) = .error tr →
      a.current_result_retry + 1 ≤ a.max_result_retries →
      a.handle_model_response messages (.toolCalls calls) =
        (messages ++ [.llmToolCalls calls, tr],
         .ok ({ a with current_result_retry := a.current_result_retry + 1 },
           none))) := by
  constructor
  · intro res hok
    simp [Agent.handle_model_response, LLMMessage.toMessage, hrt, hfind, hok]
  · intro tr herr hle
    have hincr : a.incr_result_retry =
        .ok { a with current_result_retry := a.current_result_retry + 1 } := by
      simp only [Agent.incr_result_retry]
      rw [if_neg (by omega)]
    simp [Agent.handle_model_response, LLMMessage.toMessage, hrt, hfind, herr,
      hincr]

/-- Witness for C3: a turn with calls to `toolB`, the result schema and
`toolC` — only the result call is processed, terminally. -/
theorem claim_C3_witness :
    agentResultOk.handle_model_response []
        (.toolCalls [callB, callResult, callC]) =
      ([.llmToolCalls [callB, callResult, callC]],
       .ok (agentResultOk, some "answer")) :=
  (claim_C3_result_call_authoritative agentResultOk [] [callB, callResult, callC]
    rsOk callResult rfl rfl).1 "answer" rfl

/-! ### Helper lemmas: the result-retry counter across a turn -/

/-- Retriever dispatch never touches the result-retry counter. -/
lemma dispatchCalls_result_retry (a : Agent) (messages messages' : List Message)
    (calls : List ToolCall) (a' : Agent) (res : Option String)
    (h : a.dispatchCalls messages calls = (messages', .ok (a', res))) :
    a'.current_result_retry = a.current_result_retry := by
  unfold Agent.dispatchCalls at h
  split at h
  · simp at h
  · split at h
    · simp at h
    · simp only [Prod.mk.injEq, Except.ok.injEq] at h
      obtain ⟨-, h2, -⟩ := h
      subst h2
      rfl

/-- One turn leaves the result-retry counter unchanged or increments it by
exactly one (it is never reset). -/
lemma handle_result_retry_step (a : Agent) (messages messages' : List Message)
    (llm : LLMMessage) (a' : Agent) (res : Option String)
    (h : a.handle_model_response messages llm = (messages', .ok (a', res))) :
    a'.current_result_retry = a.current_result_retry ∨
      a'.current_result_retry = a.current_result_retry + 1 := by
  cases llm with
  | response content =>
    unfold Agent.handle_model_response at h
    rcases hb : a.allow_text_result <;> rw [hb] at h <;>
      simp only [LLMMessage.toMessage, Bool.false_eq_true, if_true, if_false,
        Prod.mk.injEq, Except.ok.injEq] at h
    · obtain ⟨-, h2, -⟩ := h
      subst h2; exact Or.inl rfl
    · obtain ⟨-, h2, -⟩ := h
      subst h2; exact Or.inl rfl
  | toolCalls calls =>
    unfold Agent.handle_model_response at h
    simp only [LLMMessage.toMessage] at h
    split at h
    · split at h
      · split at h
        · simp only [Prod.mk.injEq, Except.ok.injEq] at h
          obtain ⟨-, h2, -⟩ := h
          subst h2; exact Or.inl rfl
        · split at h
          · simp at h
          · rename_i a'' heq
            simp only [Prod.mk.injEq, Except.ok.injEq] at h
            obtain ⟨-, h2, -⟩ := h
            subst h2
            unfold Agent.incr_result_retry at heq
            simp only [gt_iff_lt] at heq
            split at heq
            · cases heq
            · cases heq
              exact Or.inr rfl
      · exact Or.inl (dispatchCalls_result_retry _ _ _ _ _ _ h)
    · exact Or.inl (dispatchCalls_result_retry _ _ _ _ _ _ h)

/-- Claim C6: the result-retry counter is a single run-level counter: every
result-validation failure increments it by one through
`_incr_result_retry` (called by `_handle_model_response`, the caller of
`ResultSchema.validate`), exceeding `max_result_retries` aborts the run
fatally, no turn ever resets it (each turn keeps it or adds one), and the
per-run `run()` reset loop does not touch it. -/
theorem claim_C6_result_retry_counter (a : Agent) (messages : List Message)
    (calls : List ToolCall) (result_tool : ResultSchema) (call : ToolCall)
    (tr : Message)
    (hrt : a.result_tool = some result_tool)
    (hfind : calls.find? (fun c => c.tool_name == result_tool.name) = some call)
    (herr : result_tool.validate call >>= (fun x => a.validate_result x call)
      = .error tr) :
    (a.current_result_retry + 1 ≤ a.max_result_retries →
      a.handle_model_response messages (.toolCalls calls) =
        (messages ++ [.llmToolCalls calls, tr],
         .ok ({ a with current_result_retry := a.current_result_retry + 1 },
           none))) ∧
    (a.max_result_retries < a.current_result_retry + 1 →
      a.handle_model_response messages (.toolCalls calls) =
        (messages ++ [.llmToolCalls calls],
         .error (.resultRetriesExceeded a.max_result_retries))) ∧
    (∀ msgs llm msgs' a' res,
      a.handle_model_response msgs llm = (msgs', .ok (a', res)) →
      a'.current_result_retry = a.current_result_retry ∨
        a'.current_result_retry = a.current_result_retry + 1) ∧
    (Agent.reset_retrievers a).current_result_retry = a.current_result_retry := by
  refine ⟨fun hle => ?_, fun hgt => ?_, fun msgs llm msgs' a' res h =>
    handle_result_retry_step a msgs msgs' llm a' res h, rfl⟩
  · have hincr : a.incr_result_retry =
        .ok { a with current_result_retry := a.current_result_retry + 1 } := by
      simp only [Agent.incr_result_retry]
      rw [if_neg (by omega)]
    simp [Agent.handle_model_response, LLMMessage.toMessage, hrt, hfind, herr,
      hincr]
  · have hincr : a.incr_result_retry =
        .error (.resultRetriesExceeded a.max_result_retries) := by
      simp only [Agent.incr_result_retry]
      rw [if_pos (by omega)]
    simp [Agent.handle_model_response, LLMMessage.toMessage, hrt, hfind, herr,
      hincr]

/-- Witness for C6: `agentResult` has one retry consumed out of two; the
next result failure increments the counter to 2 and appends the retry
message. -/
theorem claim_C6_witness :
    agentResult.handle_model_response [] (.toolCalls [callResult]) =
      ([.llmToolCalls [callResult],
        .toolRetry "final_result" (.errors ["bad result"]) "idR"],
       .ok ({ agentResult with current_result_retry := 1 + 1 }, none)) :=
  (claim_C6_result_retry_counter agentResult [] [callResult] rsFail callResult
    (.toolRetry "final_result" (.errors ["bad result"]) "idR")
    rfl rfl rfl).1 (by decide)

/-! ### Helper lemma: name resolution fails before any tool runs -/

/-- If some call of the batch names no registered retriever, the resolution
loop raises `unknownFunction` for an unregistered name (the first such
call). -/
lemma resolveCalls_unknown (a : Agent) :
    ∀ calls : List ToolCall, (∃ c ∈ calls, a.getRetriever c.tool_name = none) →
      ∃ name, a.getRetriever name = none ∧
        a.resolveCalls calls = .error (.unknownFunction name) := by
  intro calls
  induction calls with
  | nil => rintro ⟨c, hc, -⟩; cases hc
  | cons c cs ih =>
    rintro ⟨b, hb, hbn⟩
    rcases hg : a.getRetriever c.tool_name with _ | r
    · exact ⟨c.tool_name, hg, by simp [Agent.resolveCalls, hg]⟩
    · have hbcs : b ∈ cs := by
        rcases List.mem_cons.mp hb with rfl | h
        · rw [hg] at hbn; cases hbn
        · exact h
      obtain ⟨name, hn, hres⟩ := ih ⟨b, hbcs, hbn⟩
      exact ⟨name, hn, by simp [Agent.resolveCalls, hg, hres]⟩

/-- Claim C8: if no authoritative result-schema call is present and some
call of the batch names no registered tool, the turn raises a fatal
`unknownFunction` error immediately, aborting the run; the only message
appended is the model's own turn message — no `ToolReturn`/`ToolRetry` is
appended for any call of the batch. -/
theorem claim_C8_unknown_tool_fatal (a : Agent) (messages : List Message)
    (calls : List ToolCall) (bad : ToolCall)
    (hmem : bad ∈ calls) (hunknown : a.getRetriever bad.tool_name = none)
    (hnores : ∀ result_tool, a.result_tool = some result_tool →
      calls.find? (fun c => c.tool_name == result_tool.name) = none) :
    ∃ name, a.getRetriever name = none ∧
      ∀ rest, runLoop a messages (.toolCalls calls :: rest) =
        (messages ++ [.llmToolCalls calls],
         .error (.unknownFunction name)) := by
  obtain ⟨name, hn, hres⟩ := resolveCalls_unknown a calls ⟨bad, hmem, hunknown⟩
  refine ⟨name, hn, fun rest => ?_⟩
  have hh : a.handle_model_response messages (.toolCalls calls) =
      (messages ++ [.llmToolCalls calls], .error (.unknownFunction name)) := by
    unfold Agent.handle_model_response
    cases hrt : a.result_tool with
    | none => simp [LLMMessage.toMessage, Agent.dispatchCalls, hres]
    | some rt =>
      simp [LLMMessage.toMessage, hnores rt hrt, Agent.dispatchCalls, hres]
  simp [runLoop, hh]

/-- Witness for C8: a batch containing a valid call to `toolB` and a call
to the unregistered tool `mystery` aborts the run with no tool message
appended. -/
theorem claim_C8_witness :
    ∃ name, agentPlain.getRetriever name = none ∧
      ∀ rest, runLoop agentPlain []
          (.toolCalls [callB, callUnknown] :: rest) =
        ([.llmToolCalls [callB, callUnknown]],
         .error (.unknownFunction name)) :=
  claim_C8_unknown_tool_fatal agentPlain [] [callB, callUnknown] callUnknown
    (by decide) rfl (fun rt h => nomatch h)

/-- The agent state after one failing `toolA` turn of `agentPlain`
(used as a concrete next-turn starting state). -/
def agentPlainAfterA : Agent :=
  { agentPlain with retrievers :=
      [("toolA", { toolAFail with current_retry := 1 }),
       ("toolB", toolBOk), ("toolC", toolCOk)] }

/-- Claim C7: every registered tool's retry counter is reset to zero
exactly once per `run()` call: `run` enters the request loop with every
counter zeroed (first two conjuncts), and the loop itself never resets —
each later turn starts from exactly the agent state the previous turn
produced (third conjunct), so a tool's retry budget spans the whole run. -/
theorem claim_C7_reset_once_per_run (a : Agent) (user_prompt : String)
    (history : Option (List Message)) (script : List LLMMessage) :
    (∀ p ∈ (Agent.reset_retrievers a).retrievers,
      (p : String × Retriever).2.current_retry = 0) ∧
    (a.run user_prompt history script =
      runLoop a.reset_retrievers
        ((match history with
          | some h => h
          | none => a.init_messages) ++ [Message.userPrompt user_prompt])
        script) ∧
    (∀ (b : Agent) msgs llm msgs' b' rest,
      b.handle_model_response msgs llm = (msgs', .ok (b', none)) →
      runLoop b msgs (llm :: rest) = runLoop b' msgs' rest) := by
  refine ⟨?_, rfl, ?_⟩
  · intro p hp
    have hmap : (Agent.reset_retrievers a).retrievers
        = a.retrievers.map (fun q => (q.1, q.2.reset)) := rfl
    rw [hmap] at hp
    obtain ⟨q, -, rfl⟩ := List.mem_map.mp hp
    rfl
  · intro b msgs llm msgs' b' rest h
    simp [runLoop, h]

/-- Witness for C7: after `toolA` fails once in turn 1 of a run of
`agentPlain`, turn 2 starts with `toolA`'s counter still at 1 (the loop
applies no reset), while the pre-run reset had zeroed every counter. -/
theorem claim_C7_witness :
    (∀ p ∈ (Agent.reset_retrievers agentPlain).retrievers,
      (p : String × Retriever).2.current_retry = 0) ∧
    runLoop agentPlain [] [.toolCalls [callA]] =
      runLoop agentPlainAfterA
        [.llmToolCalls [callA],
         .toolRetry "toolA" (.errors ["city: wrong type"]) "idA"] [] ∧
    agentPlainAfterA.getRetriever "toolA" =
      some { toolAFail with current_retry := 1 } :=
  ⟨(claim_C7_reset_once_per_run agentPlain "q" none []).1,
   (claim_C7_reset_once_per_run agentPlain "q" none []).2.2
     agentPlain [] (.toolCalls [callA]) _ agentPlainAfterA [] rfl,
   rfl⟩

/-! ### Helper lemma: the run loop never decreases the result-retry counter -/

lemma runLoop_result_retry_mono (script : List LLMMessage) :
    ∀ (a : Agent) (msgs msgs' : List Message) (a' : Agent) (e : LoopEnd),
      runLoop a msgs script = (msgs', .ok (a', e)) →
      a.current_result_retry ≤ a'.current_result_retry := by
  induction script with
  | nil =>
    intro a msgs msgs' a' e h
    simp only [runLoop, Prod.mk.injEq, Except.ok.injEq] at h
    obtain ⟨-, h2, -⟩ := h
    subst h2; exact le_refl _
  | cons llm rest ih =>
    intro a msgs msgs' a' e h
    rcases hh : a.handle_model_response msgs llm with ⟨m1, r1⟩
    rcases r1 with e1 | ⟨a1, res1⟩
    · rw [runLoop, hh] at h; simp at h
    · rcases res1 with _ | r
      · rw [runLoop, hh] at h
        simp only at h
        have h1 := handle_result_retry_step a msgs m1 llm a1 none hh
        have h2 := ih a1 m1 msgs' a' e h
        rcases h1 with h1 | h1 <;> omega
      · rw [runLoop, hh] at h
        simp only [Prod.mk.injEq, Except.ok.injEq] at h
        obtain ⟨-, h2, -⟩ := h
        rcases handle_result_retry_step a msgs m1 llm a1 (some r) hh with h1 | h1 <;>
          rw [← h2] <;> omega

/-- Claim C10: the result-retry counter starts at zero only at agent
construction and `run()` never resets it (the loop starts from the
instance's current counter and the turns only ever keep or increment it),
so result-validation retries accumulate across successive `run()` calls,
and an instance with consumed retries has a strictly smaller remaining
result-retry budget than `max_result_retries`. -/
theorem claim_C10_result_retry_across_runs
    (rt : Option ResultSchema) (sp : List String) (n : Nat) (rr : Option Nat)
    (a : Agent) (p : String) (hist : Option (List Message))
    (script : List LLMMessage) :
    (Agent.init rt sp n rr).current_result_retry = 0 ∧
    (Agent.reset_retrievers a).current_result_retry = a.current_result_retry ∧
    (a.run p hist script =
      runLoop a.reset_retrievers
        ((match hist with
          | some h => h
          | none => a.init_messages) ++ [Message.userPrompt p]) script) ∧
    (∀ msgs' a' e, a.run p hist script = (msgs', .ok (a', e)) →
      a.current_result_retry ≤ a'.current_result_retry) ∧
    (0 < a.current_result_retry →
      a.current_result_retry ≤ a.max_result_retries →
      a.max_result_retries - a.current_result_retry < a.max_result_retries) := by
  refine ⟨rfl, rfl, rfl, fun msgs' a' e h => ?_, fun h1 h2 => ?_⟩
  · exact runLoop_result_retry_mono script a.reset_retrievers _ msgs' a' e h
  · omega

/-- Witness for C10 at `agentResult` (counter 1, budget 2): construction
starts at 0, `run()` enters the loop with the counter still at 1, a full
(empty-transcript) run does not decrease it, and the remaining budget is
strictly below the maximum. -/
theorem claim_C10_witness :
    (Agent.init none [] 1 none).current_result_retry = 0 ∧
    (Agent.reset_retrievers agentResult).current_result_retry
      = agentResult.current_result_retry ∧
    agentResult.current_result_retry
      ≤ (Agent.reset_retrievers agentResult).current_result_retry ∧
    agentResult.max_result_retries - agentResult.current_result_retry
      < agentResult.max_result_retries := by
  obtain ⟨h1, h2, -, h4, h5⟩ :=
    claim_C10_result_retry_across_runs none [] 1 none agentResult "q" none []
  exact ⟨h1, h2, h4 _ _ _ rfl, h5 (by decide) (by decide)⟩

/-! ### Helper lemmas: gather slots under an arbitrary completion order -/

lemma execSchedule_getElem (tasks : List (Retriever × ToolCall)) :
    ∀ (order : List Nat) (slots : List (Option Message)),
      slots.length = tasks.length → ∀ j,
      (execSchedule tasks order slots)[j]? =
        if j ∈ order ∧ j < tasks.length
        then (tasks[j]?).map (fun t => msgOf (taskRun t))
        else slots[j]? := by
  intro order
  induction order with
  | nil =>
    intro slots _ j
    simp [execSchedule]
  | cons i rest ih =>
    intro slots hlen j
    rw [execSchedule]
    rcases h : tasks[i]? with _ | t
    · have hi : tasks.length ≤ i := List.getElem?_eq_none_iff.mp h
      simp only [h]
      rw [ih slots hlen j]
      by_cases hji : j = i
      · subst hji
        have hnj : ¬ j < tasks.length := by omega
        simp [hnj]
      · simp [List.mem_cons, hji]
    · have hi : i < tasks.length := by
        by_contra hc
        rw [List.getElem?_eq_none (by omega)] at h
        cases h
      simp only [h]
      rw [ih (slots.set i (msgOf (taskRun t))) (by simp [hlen]) j]
      by_cases hjr : j ∈ rest ∧ j < tasks.length
      · rw [if_pos hjr, if_pos ⟨List.mem_cons_of_mem i hjr.1, hjr.2⟩]
      · rw [if_neg hjr]
        by_cases hji : j = i
        · subst hji
          rw [List.getElem?_set_self (by rw [hlen]; exact hi),
            if_pos ⟨List.mem_cons_self j rest, hi⟩, h]
          rfl
        · rw [List.getElem?_set_ne (fun hij => hji hij.symm)]
          rw [if_neg (fun hc => ?_)]
          rcases List.mem_cons.mp hc.1 with rfl | hm2
          · exact hji rfl
          · exact hjr ⟨hm2, hc.2⟩

/-- Completing the tasks of one batch in *any* order fills the slots with
exactly the input-order results. -/
lemma gatherWithOrder_perm (tasks : List (Retriever × ToolCall))
    (order : List Nat) (hperm : order.Perm (List.range tasks.length)) :
    gatherWithOrder tasks order = tasks.map (fun t => msgOf (taskRun t)) := by
  apply List.ext_getElem?
  intro j
  rw [gatherWithOrder, execSchedule_getElem tasks order _ (by simp) j,
    List.getElem?_map]
  by_cases hj : j < tasks.length
  · rw [if_pos ⟨hperm.mem_iff.mpr (List.mem_range.mpr hj), hj⟩]
  · rw [if_neg (fun hc => hj hc.2), List.getElem?_replicate, if_neg hj,
      List.getElem?_eq_none (by omega)]
    rfl

/-- A successful sequential gather returns, in input order, the message of
each task. -/
lemma gatherSeq_map (tasks : List (Retriever × ToolCall)) :
    ∀ results, gatherSeq tasks = .ok results →
      tasks.map (fun t => msgOf (taskRun t)) = results.map (fun p => some p.2) := by
  induction tasks with
  | nil =>
    intro results h
    cases h; rfl
  | cons t ts ih =>
    intro results h
    rw [gatherSeq] at h
    rcases hr : taskRun t with e | p <;> simp only [hr] at h
    · cases h
    · rcases hts : gatherSeq ts with e2 | rs <;> simp only [hts] at h
      · cases h
      · cases h
        rw [List.map_cons, List.map_cons, ih rs hts]
        congr 1
        simp [msgOf, hr]

/-- Claim C4: for a turn of dispatched tool calls, the `ToolReturn` /
`ToolRetry` messages are appended in the order the calls appeared in the
turn — under *any* completion order of the concurrently launched
invocations the gathered slots equal the input-order results (first
conjunct) — and all of them are appended before the loop issues the next
model request (third conjunct). -/
theorem claim_C4_input_order (a : Agent) (messages : List Message)
    (calls : List ToolCall) (tasks : List (Retriever × ToolCall))
    (results : List (Retriever × Message)) (order : List Nat)
    (hnores : ∀ result_tool, a.result_tool = some result_tool →
      calls.find? (fun c => c.tool_name == result_tool.name) = none)
    (hresolve : a.resolveCalls calls = .ok tasks)
    (hrun : gatherSeq tasks = .ok results)
    (hperm : order.Perm (List.range tasks.length)) :
    gatherWithOrder tasks order = results.map (fun p => some p.2) ∧
    a.handle_model_response messages (.toolCalls calls) =
      (messages ++ [.llmToolCalls calls] ++ results.map Prod.snd,
       .ok ({ a with retrievers :=
          results.foldl (fun regs p => storeRetriever regs p.1) a.retrievers },
        none)) ∧
    (∀ rest, runLoop a messages (.toolCalls calls :: rest) =
      runLoop
        { a with retrievers :=
            results.foldl (fun regs p => storeRetriever regs p.1) a.retrievers }
        (messages ++ [.llmToolCalls calls] ++ results.map Prod.snd) rest) := by
  have h2 : a.handle_model_response messages (.toolCalls calls) =
      (messages ++ [.llmToolCalls calls] ++ results.map Prod.snd,
       .ok ({ a with retrievers :=
          results.foldl (fun regs p => storeRetriever regs p.1) a.retrievers },
        none)) := by
    unfold Agent.handle_model_response
    cases hrt : a.result_tool with
    | none =>
      simp [LLMMessage.toMessage, hrt, Agent.dispatchCalls, hresolve, hrun,
        List.append_assoc]
    | some rt =>
      simp [LLMMessage.toMessage, hrt, hnores rt hrt, Agent.dispatchCalls,
        hresolve, hrun, List.append_assoc]
  exact ⟨(gatherWithOrder_perm tasks order hperm).trans
      (gatherSeq_map tasks results hrun),
    h2, fun rest => by simp [runLoop, h2]⟩

/-- The resolved batch for a turn calling `toolB` then `toolC`. -/
def tasksBC : List (Retriever × ToolCall) := [(toolBOk, callB), (toolCOk, callC)]

/-- The gathered results of that batch, in input order. -/
def resultsBC : List (Retriever × Message) :=
  [({ toolBOk with current_retry := 0 }, .toolReturn "toolB" "rb" "idB"),
   ({ toolCOk with current_retry := 0 }, .toolReturn "toolC" "rc" "idC")]

/-- The agent state after the `toolB` / `toolC` turn: both retriever
counters (re)set to 0, `toolA` untouched. -/
def agentPlainBC : Agent :=
  { agentPlain with retrievers :=
      [("toolA", toolAFail),
       ("toolB", { toolBOk with current_retry := 0 }),
       ("toolC", { toolCOk with current_retry := 0 })] }

/-- Witness for C4: with completion order `[1, 0]` (the second call
finishes first) the gathered messages still come out in input order, and
the turn appends them in that order. -/
theorem claim_C4_witness :
    gatherWithOrder tasksBC [1, 0] =
      [some (.toolReturn "toolB" "rb" "idB"),
       some (.toolReturn "toolC" "rc" "idC")] ∧
    agentPlain.handle_model_response [] (.toolCalls [callB, callC]) =
      ([.llmToolCalls [callB, callC], .toolReturn "toolB" "rb" "idB",
        .toolReturn "toolC" "rc" "idC"],
       .ok (agentPlainBC, none)) := by
  obtain ⟨h1, h2, -⟩ := claim_C4_input_order agentPlain [] [callB, callC]
    tasksBC resultsBC [1, 0] (fun rt h => nomatch h) rfl rfl (by decide)
  exact ⟨h1, h2⟩

end PydanticAI
